import Mathlib

/-!
# Mini-shell command evaluator (`cmd.c`)

A shallow embedding of the command-tree evaluator of the mini-shell:
`compute_word`, `redirection_files`, `shell_cd`, `shell_pwd`, `parse_simple`,
`run_in_parallel`, `run_on_pipe` and `parse_command`.

Modelling conventions.

* A C string is a Lean `String`; one `Char` stands for one C `char`.
* A pointer to a heap node of the parser (`word_t *`, `command_t *`,
  `simple_command_t *`) is an inductive value with a `NULL` constructor
  (or an `Option`); the trees are finite and acyclic.
* A `char buf[N]` array is a `String` together with its size `N`: a copy that
  does not fit (`length + 1 > N`) is a memory error, result `none`.
* The process state (environment table, working directory, descriptor table)
  is passed explicitly; the part of the machine that is shared between
  processes (file system, terminal, pipes) is an abstract world `W` driven by
  a `kernel W` record of system-call oracles.
* `fork` gives the child a copy of the process state; the world the child
  leaves behind is the one the parent continues in.  The two children of a
  parallel or pipe node are run one after the other (left one first).
* `fflush` is not modelled: output of `printf` reaches its descriptor at once.
-/

set_option autoImplicit false

namespace MiniShell

/-! ## Data model (declared in the parser headers) -/

/-- Pointer to a `word_t`: `NULL`, or a node with the fields `string`,
`expand`, `next_part` (next fragment of the same word) and `next_word`
(next parameter). -/
inductive word_t where
  | NULL : word_t
  | mk (string : String) (expand : Bool) (next_part : word_t) (next_word : word_t) : word_t
  deriving DecidableEq, Repr

/-- Modelled from the spec: the value of `IO_REGULAR` (parser header, not in
the sources): the truncate setting of the append/truncate flag. -/
def IO_REGULAR : Nat := 0

/-- The record `simple_command_t`; the field `in` of the C struct is `in_`. -/
structure simple_command_t where
  verb : word_t
  params : word_t
  in_ : word_t
  out : word_t
  err : word_t
  io_flags : Nat
  deriving DecidableEq, Repr

/-- The operators of a `command_t`; `OP_DUMMY` stands for every value that
the `switch` of `parse_command` sends to `default`. -/
inductive operator_t where
  | OP_NONE
  | OP_SEQUENTIAL
  | OP_PARALLEL
  | OP_CONDITIONAL_ZERO
  | OP_CONDITIONAL_NZERO
  | OP_PIPE
  | OP_DUMMY
  deriving DecidableEq, Repr

/-- Pointer to a `command_t`: `NULL`, or a node with `op`, `cmd1`, `cmd2`
and the (possibly null) pointer `scmd`. -/
inductive command_t where
  | NULL : command_t
  | mk (op : operator_t) (cmd1 : command_t) (cmd2 : command_t)
      (scmd : Option simple_command_t) : command_t
  deriving Repr

/-! ## C library: strings and the environment table -/

/-- `strcpy(dst, src)` into an array of `size` chars: the new content of
`dst`, or `none` when `src` with its terminator does not fit. -/
def strcpy (size : Nat) (src : String) : Option String :=
  if src.length < size then some src else none

/-- `strcat(dst, src)` into an array of `size` chars. -/
def strcat (size : Nat) (dst src : String) : Option String :=
  if (dst ++ src).length < size then some (dst ++ src) else none

/-- `getenv(name)`: the value of the first entry called `name`, `none` for
the null pointer. -/
def getenv (env : List (String × String)) (name : String) : Option String :=
  match env with
  | [] => none
  | (n, v) :: rest => if n = name then some v else getenv rest name

/-- `setenv(name, value, 1)`: fails with -1 (`EINVAL`) on an empty name or a
name containing `=`; otherwise the entry is replaced or added and 0 is
returned. -/
def setenv (env : List (String × String)) (name value : String) :
    Int × List (String × String) :=
  if name = "" ∨ '=' ∈ name.data then (-1, env)
  else (0, (name, value) :: env.filter (fun e => decide (e.1 ≠ name)))

/-! ## Operating system interface -/

/-- Result of `waitpid`: the child called `exit(code)` (low 8 bits kept) or
was terminated by a signal. -/
inductive wstatus where
  | exited (code : Nat)
  | signaled (sig : Nat)
  deriving DecidableEq, Repr

/-- `WIFEXITED(status)`. -/
def WIFEXITED : wstatus → Bool
  | .exited _ => true
  | .signaled _ => false

/-- `WEXITSTATUS(status)`. -/
def WEXITSTATUS : wstatus → Int
  | .exited code => (code % 256 : Nat)
  | .signaled _ => 0

/-- The three flag combinations `cmd.c` passes to `open`. -/
inductive open_flags where
  | O_RDONLY
  | O_WRONLY_CREAT_TRUNC
  | O_WRONLY_CREAT_APPEND
  deriving DecidableEq, Repr

/-- An open file description: a stream the shell was started with, a file
opened by `open` (with the working directory the path was resolved in), or
one end of a pipe. -/
inductive file_t where
  | inherited (fd : Nat)
  | opened (cwd path : String) (flags : open_flags)
  | pipe_end (id : Nat) (writing : Bool)
  deriving DecidableEq, Repr

/-- Descriptor table: entry `n` is what descriptor `n` refers to. -/
abbrev fdtable := List (Option file_t)

/-- What `execvp` did: it returned (-1, with `errno`), or the program ran in
place of the child and terminated, leaving the world `world`. -/
inductive exec_result (W : Type) where
  | failed (errno : Int)
  | ran (status : wstatus) (world : W)

/-- The system calls whose result depends on the machine outside the shell.
`open_` gives the world after a successful `open` or `none` when it fails;
`chdir` gives the new working directory or the message `perror` prints;
`signal w` is the signal, if any, that terminates a forked shell process
that is about to call `exit` in world `w`. -/
structure kernel (W : Type) where
  open_ : W → String → String → open_flags → Option W
  chdir : W → String → Option String → Except String String
  getcwd : W → String → Option String
  write : W → file_t → String → W
  new_pipe : W → Nat × W
  execvp : W → String → List String → List (String × String) → String → fdtable →
    exec_result W
  signal : W → Option Nat

/-- State of one shell process: environment table, working directory and
descriptor table (copied by `fork`), the bytes an uninitialised `char`
array on the stack happens to hold (`stack`, read as a C string), and the
world shared with the other processes. -/
structure state (W : Type) where
  env : List (String × String)
  cwd : String
  fds : fdtable
  stack : String
  world : W

section syscalls

variable {W : Type}

/-- The description descriptor `fd` refers to, if it is open. -/
def fd_get (fds : fdtable) (fd : Int) : Option file_t :=
  if fd < 0 then none else (fds.get? fd.toNat).join

/-- Update of entry `n` of a descriptor table. -/
def fd_set : fdtable → Nat → Option file_t → fdtable
  | [], 0, v => [v]
  | [], n + 1, v => none :: fd_set [] n v
  | _ :: t, 0, v => v :: t
  | h :: t, n + 1, v => h :: fd_set t n v

/-- The lowest descriptor that is not open. -/
def lowest_free : fdtable → Nat
  | [] => 0
  | none :: _ => 0
  | some _ :: t => lowest_free t + 1

/-- `open(path, flags)`: -1 on failure, else the lowest free descriptor. -/
def open_ (k : kernel W) (st : state W) (path : String) (flags : open_flags) :
    Int × state W :=
  match k.open_ st.world st.cwd path flags with
  | none => (-1, st)
  | some w =>
    ((lowest_free st.fds : Nat),
      { st with fds := fd_set st.fds (lowest_free st.fds) (some (.opened st.cwd path flags)),
                world := w })

/-- `dup(oldfd)`. -/
def dup (st : state W) (oldfd : Int) : Int × state W :=
  match fd_get st.fds oldfd with
  | none => (-1, st)
  | some f =>
    ((lowest_free st.fds : Nat), { st with fds := fd_set st.fds (lowest_free st.fds) (some f) })

/-- `dup2(oldfd, newfd)`; nothing happens when `oldfd` is not open. -/
def dup2 (st : state W) (oldfd newfd : Int) : state W :=
  match fd_get st.fds oldfd with
  | none => st
  | some f => if newfd < 0 then st else { st with fds := fd_set st.fds newfd.toNat (some f) }

/-- `close(fd)`; nothing happens when `fd` is not open. -/
def close (st : state W) (fd : Int) : state W :=
  match fd_get st.fds fd with
  | none => st
  | some _ => { st with fds := fd_set st.fds fd.toNat none }

/-- Output of `bytes` on descriptor `fd` (`printf` on 1, `perror` on 2). -/
def write (k : kernel W) (st : state W) (fd : Int) (bytes : String) : state W :=
  match fd_get st.fds fd with
  | none => st
  | some f => { st with world := k.write st.world f bytes }

/-- `pipe(pipefd)`: the read end `pipefd[0]`, the write end `pipefd[1]`. -/
def pipe (k : kernel W) (st : state W) : Int × Int × state W :=
  let r := lowest_free st.fds
  let fds := fd_set st.fds r (some (.pipe_end (k.new_pipe st.world).1 false))
  let w := lowest_free fds
  ((r : Nat), (w : Nat),
    { st with fds := fd_set fds w (some (.pipe_end (k.new_pipe st.world).1 true)),
              world := (k.new_pipe st.world).2 })

/-- Termination of a forked shell process that calls `exit(code)` in state
`st`: the status its parent collects with `waitpid`. -/
def exit (k : kernel W) (st : state W) (code : Int) : wstatus :=
  match k.signal st.world with
  | some sig => .signaled sig
  | none => .exited (code % 256).toNat

end syscalls

/-! ## `cmd.c` -/

section cmd

variable {W : Type}

/-- The loop of `compute_word`: `flag` walks the `next_part` chain, `first`
is the local flag, `auxvalue` the current content of the output array (of
`size` chars). -/
def compute_word_loop (size : Nat) (env : List (String × String)) :
    word_t → Bool → String → Option String
  | .NULL, _, auxvalue => some auxvalue
  | .mk string expand next_part _, first, auxvalue =>
    if expand then
      match getenv env string with
      | none => compute_word_loop size env next_part first auxvalue
      | some var =>
        if first then
          (strcpy size var).bind (compute_word_loop size env next_part false)
        else
          (strcat size auxvalue var).bind (compute_word_loop size env next_part false)
    else
      if first then
        (strcpy size string).bind (compute_word_loop size env next_part false)
      else
        (strcat size auxvalue string).bind (compute_word_loop size env next_part false)

/-- The function `compute_word(flag, auxvalue)`: the content it leaves in
the array `auxvalue` (previous content `auxvalue`, `size` chars long). -/
def compute_word (size : Nat) (env : List (String × String)) (flag : word_t)
    (auxvalue : String) : Option String :=
  compute_word_loop size env flag true auxvalue

/-- First block of `redirection_files` (`s->in`): the state afterwards and
the value left in `*changed_in`. -/
def redirect_in (k : kernel W) (s : simple_command_t) (st : state W) :
    Option (state W × Bool) :=
  match s.in_ with
  | .NULL => some (st, false)
  | .mk _ _ _ _ =>
    (compute_word 100 st.env s.in_ st.stack).map fun auxvalue =>
      let r := open_ k st auxvalue .O_RDONLY
      (close (dup2 r.2 r.1 0) r.1, true)

/-- The `open` calls of the output and error blocks of `redirection_files`
on the file `auxvalue`; `other` is the other one of `s->out`, `s->err`. -/
def open_for_writing (k : kernel W) (s : simple_command_t) (other : word_t)
    (st : state W) (auxvalue : String) : Int × state W :=
  if s.io_flags = IO_REGULAR then
    match other with
    | .mk _ _ _ _ =>
      let r := open_ k st auxvalue .O_WRONLY_CREAT_TRUNC
      open_ k (close r.2 r.1) auxvalue .O_WRONLY_CREAT_APPEND
    | .NULL => open_ k st auxvalue .O_WRONLY_CREAT_TRUNC
  else
    open_ k st auxvalue .O_WRONLY_CREAT_APPEND

/-- Second block of `redirection_files` (`s->out`). -/
def redirect_out (k : kernel W) (s : simple_command_t) (st : state W) :
    Option (state W × Bool) :=
  match s.out with
  | .NULL => some (st, false)
  | .mk _ _ _ _ =>
    (compute_word 100 st.env s.out st.stack).map fun auxvalue =>
      let r := open_for_writing k s s.err st auxvalue
      (close (dup2 r.2 r.1 1) r.1, true)

/-- Third block of `redirection_files` (`s->err`). -/
def redirect_err (k : kernel W) (s : simple_command_t) (st : state W) :
    Option (state W × Bool) :=
  match s.err with
  | .NULL => some (st, false)
  | .mk _ _ _ _ =>
    (compute_word 100 st.env s.err st.stack).map fun auxvalue =>
      let r := open_for_writing k s s.out st auxvalue
      (close (dup2 r.2 r.1 2) r.1, true)

/-- The function `redirection_files(s, &changed_in, &changed_out,
&changed_err)`: the state afterwards and the three flags (a caller that
passes null pointers ignores them). -/
def redirection_files (k : kernel W) (s : simple_command_t) (st : state W) :
    Option (state W × Bool × Bool × Bool) :=
  (redirect_in k s st).bind fun a =>
  (redirect_out k s a.1).bind fun b =>
  (redirect_err k s b.1).map fun c => (c.1, a.2, b.2, c.2)

/-- The function `shell_pwd`. -/
def shell_pwd (k : kernel W) (st : state W) : Int × state W :=
  match (k.getcwd st.world st.cwd).bind (strcpy 500) with
  | none => (1, st)
  | some current_directory => (0, write k st 1 (current_directory ++ "\n"))

/-- The function `shell_cd(dir)`. -/
def shell_cd (k : kernel W) (dir : word_t) (st : state W) : Bool × state W :=
  match dir with
  | .NULL => (true, st)
  | .mk string expand _ next_word =>
    match next_word with
    | .mk _ _ _ _ => (true, st)
    | .NULL =>
      match k.chdir st.world st.cwd (if expand then getenv st.env string else some string) with
      | .error msg => (false, write k st 2 (msg ++ "\n"))
      | .ok dir => (true, { st with cwd := dir })

/-- Restoring one standard descriptor in `parse_simple`:
`if (changed) { dup2(saved, fd); close(saved); }`. -/
def restore (st : state W) (changed : Bool) (saved fd : Int) : state W :=
  if changed then close (dup2 st saved fd) saved else st

/-- The three restore blocks after a built-in. -/
def restore_all (st : state W) (changed : Bool × Bool × Bool)
    (saved_in saved_out saved_err : Int) : state W :=
  restore (restore (restore st changed.1 saved_in 0) changed.2.1 saved_out 1)
    changed.2.2 saved_err 2

/-- A pointer stored in `args[]` by the child: to a string that lives until
`execvp` (a word of the tree, a value of the environment, a literal), or to
the array `auxvalue` of the parameter loop. -/
inductive arg_t where
  | str (s : String)
  | auxvalue
  deriving DecidableEq, Repr

/-- The parameter loop of the child in `parse_simple`: `flag` walks the
`next_word` chain, `args` are the entries stored so far (`aux` is their
number), `auxvalue` is the content of the array `auxvalue` of the loop body.
A store beyond `args[49]` is a memory error. -/
def args_loop (env : List (String × String)) :
    word_t → List arg_t → String → Option (List arg_t × String)
  | .NULL, args, auxvalue => some (args, auxvalue)
  | .mk string expand next_part next_word, args, auxvalue =>
    if args.length < 50 then
      match next_part with
      | .mk _ _ _ _ =>
        (compute_word 100 env (.mk string expand next_part next_word) auxvalue).bind
          fun auxvalue => args_loop env next_word (args ++ [.auxvalue]) auxvalue
      | .NULL =>
        if expand then
          args_loop env next_word (args ++ [.str ((getenv env string).getD "")]) auxvalue
        else
          args_loop env next_word (args ++ [.str string]) auxvalue
    else none

/-- The string a stored pointer points to when `execvp` reads the vector;
`auxvalue` is the content of the array of the parameter loop at that time. -/
def deref (auxvalue : String) : arg_t → String
  | .str s => s
  | .auxvalue => auxvalue

/-- The argument vector the child of `parse_simple` hands to `execvp`:
`args[0] = s->verb->string`, the parameter loop, the closing null pointer,
and then the strings the stored pointers point to at the time of the call
(every pointer to `auxvalue` reads the final content of that array). -/
def build_args (env : List (String × String)) (verb_string : String) (params : word_t)
    (stack : String) : Option (List String) :=
  (args_loop env params [.str verb_string] stack).bind fun r =>
    if r.1.length < 50 then
      some (r.1.map (deref r.2))
    else none

/-- The end of the child of `parse_simple`: `execvp(s->verb->string, args)`
in state `st` and, when `execvp` returns, the message and `exit(errno)`.
The result is the status the parent collects and the world left behind. -/
def exec_child (k : kernel W) (verb_string : String) (args : List String) (st : state W) :
    wstatus × W :=
  match k.execvp st.world verb_string args st.env st.cwd st.fds with
  | .ran status world => (status, world)
  | .failed errno =>
    let stf := write k st 1 ("Execution failed for \x27" ++ verb_string ++ "\x27\n")
    (exit k stf errno, stf.world)

/-- The child process of `parse_simple`, from `fork` to its termination:
the argument vector is built, the redirections are applied, and the program
is executed. -/
def run_child (k : kernel W) (s : simple_command_t) (verb_string : String) (st : state W) :
    Option (wstatus × W) :=
  (build_args st.env verb_string s.params st.stack).bind fun args =>
  (redirection_files k s st).map fun r => exec_child k verb_string args r.1

/-- The function `parse_simple(s, level, father)` (`level` and `father` are
not used by the code).  `SHELL_EXIT` is the constant of `cmd.h`. -/
def parse_simple (k : kernel W) (SHELL_EXIT : Int) (s : Option simple_command_t)
    (st : state W) : Option (Int × state W) :=
  match s with
  | none => some (0, st)
  | some s =>
    match s.verb with
    | .NULL => none
    | .mk verb_string _ verb_next_part _ =>
      if verb_string = "cd" ∨ verb_string = "pwd" then
        let saved_in := dup st 0
        let saved_out := dup saved_in.2 1
        let saved_err := dup saved_out.2 2
        (redirection_files k s saved_err.2).map fun red =>
          if verb_string = "cd" then
            let r := shell_cd k s.params red.1
            (if r.1 then 0 else 1,
              restore_all r.2 red.2 saved_in.1 saved_out.1 saved_err.1)
          else
            let r := shell_pwd k red.1
            (r.1, restore_all r.2 red.2 saved_in.1 saved_out.1 saved_err.1)
      else if verb_string = "exit" ∨ verb_string = "quit" then
        some (SHELL_EXIT, st)
      else
        let external : Option (Int × state W) :=
          (run_child k s verb_string st).map fun c =>
            (if WIFEXITED c.1 then WEXITSTATUS c.1 else 0, { st with world := c.2 })
        match verb_next_part with
        | .mk part_string _ value _ =>
          if part_string.data.head? = some '=' then
            (compute_word 100 st.env value st.stack).map fun auxvalue =>
              ((setenv st.env verb_string auxvalue).1,
                { st with env := (setenv st.env verb_string auxvalue).2 })
          else external
        | .NULL => external

/-- The function `run_in_parallel(cmd1, cmd2, level, father)`; `p1` and `p2`
are the calls `parse_command(cmd1, ...)` and `parse_command(cmd2, ...)` made
by the first and the second child. -/
def run_in_parallel (k : kernel W) (p1 p2 : state W → Option (Int × state W))
    (st : state W) : Option (Bool × state W) :=
  (p1 st).bind fun first =>
  (p2 { st with world := first.2.world }).map fun second =>
    let status2 := exit k second.2 0
    let code1 : Int :=
      if WIFEXITED status2 then (if WEXITSTATUS status2 = 0 then 0 else 1) else 1
    let status1 := exit k { first.2 with world := second.2.world } code1
    (if WIFEXITED status1 then decide (WEXITSTATUS status1 = 0) else true,
      { st with world := second.2.world })

/-- The state in which the producer (first child) of `run_on_pipe` calls
`parse_command(cmd1, ...)`. -/
def producer_context (k : kernel W) (st : state W) : state W :=
  let p := pipe k st
  close (dup2 p.2.2 p.2.1 1) p.2.1

/-- The state in which the consumer (second child) of `run_on_pipe` calls
`parse_command(cmd2, ...)`, after the producer `p1` has run. -/
def consumer_context (k : kernel W) (p1 : state W → Option (Int × state W))
    (st : state W) : Option (state W) :=
  (p1 (producer_context k st)).map fun first =>
    let p := pipe k st
    let parent := close p.2.2 p.2.1
    close (dup2 { parent with world := first.2.world } p.1 0) p.1

/-- The state in which the parent leaves `run_on_pipe`: both ends of the
pipe are closed again, `world` is the world the children left. -/
def pipe_parent_end (k : kernel W) (st : state W) (world : W) : state W :=
  let p := pipe k st
  let parent := close p.2.2 p.2.1
  close { parent with world := world } p.1

/-- The function `run_on_pipe(cmd1, cmd2, level, father)`; `p1` and `p2` are
the calls of `parse_command` made by the two children. -/
def run_on_pipe (k : kernel W) (p1 p2 : state W → Option (Int × state W))
    (st : state W) : Option (Bool × state W) :=
  (consumer_context k p1 st).bind fun c =>
  (p2 c).map fun second =>
    let status := exit k second.2 second.1
    (if WIFEXITED status then decide (WEXITSTATUS status = 0) else true,
      pipe_parent_end k st second.2.world)

/-- The function `parse_command(c, level, father)` (`level` and `father`
are only passed on). -/
def parse_command (k : kernel W) (SHELL_EXIT : Int) :
    command_t → state W → Option (Int × state W)
  | .NULL, st => some (0, st)
  | .mk op cmd1 cmd2 scmd, st =>
    match op with
    | .OP_NONE => parse_simple k SHELL_EXIT scmd st
    | .OP_SEQUENTIAL =>
      (parse_command k SHELL_EXIT cmd1 st).bind fun r =>
        parse_command k SHELL_EXIT cmd2 r.2
    | .OP_PARALLEL =>
      (run_in_parallel k (parse_command k SHELL_EXIT cmd1) (parse_command k SHELL_EXIT cmd2)
        st).map fun ret => (if ret.1 then 0 else 1, ret.2)
    | .OP_CONDITIONAL_NZERO =>
      (parse_command k SHELL_EXIT cmd1 st).bind fun r =>
        if r.1 ≠ 0 then parse_command k SHELL_EXIT cmd2 r.2 else some r
    | .OP_CONDITIONAL_ZERO =>
      (parse_command k SHELL_EXIT cmd1 st).bind fun r =>
        if r.1 = 0 then parse_command k SHELL_EXIT cmd2 r.2 else some r
    | .OP_PIPE =>
      (run_on_pipe k (parse_command k SHELL_EXIT cmd1) (parse_command k SHELL_EXIT cmd2)
        st).map fun ret => (if ret.1 then 0 else 1, ret.2)
    | .OP_DUMMY => some (SHELL_EXIT, st)

end cmd

/-! ## Specification-side notions -/

/-- Contribution of one fragment as the specification defines it: its text
for a literal, the value of the variable (nothing if undefined) for an
environment reference. -/
def contribution (env : List (String × String)) (string : String) (expand : Bool) : String :=
  if expand then (getenv env string).getD "" else string

/-- The specification of word expansion: the in-order concatenation of the
contributions of the fragments (`next_part` chain) of a word. -/
def expand (env : List (String × String)) : word_t → String
  | .NULL => ""
  | .mk string e next_part _ => contribution env string e ++ expand env next_part

/-- Does some fragment of the word reach a `strcpy`/`strcat` of
`compute_word`, that is, is it a literal or a defined variable? -/
def contributes (env : List (String × String)) : word_t → Bool
  | .NULL => false
  | .mk string e next_part _ =>
    (!e || (getenv env string).isSome) || contributes env next_part

/-- The words of a parameter list (`next_word` chain), in order. -/
def words : word_t → List word_t
  | .NULL => []
  | .mk string e next_part next_word => .mk string e next_part next_word :: words next_word

/-- A word with more than one fragment (`flag->next_part != NULL`). -/
def multi : word_t → Bool
  | .mk _ _ (.mk _ _ _ _) _ => true
  | _ => false

/-- The pointer the parameter loop stores for a word. -/
def stored (env : List (String × String)) (w : word_t) : arg_t :=
  if multi w then .auxvalue else .str (expand env w)

/-- Content of the array `auxvalue` after the parameter loop has passed the
words `ws`, when every multi-fragment word writes its expansion. -/
def last_auxvalue (env : List (String × String)) : List word_t → String → String
  | [], auxvalue => auxvalue
  | w :: ws, auxvalue => last_auxvalue env ws (if multi w then expand env w else auxvalue)

/-- A leaf node for the simple command `s`. -/
def leaf (s : simple_command_t) : command_t :=
  .mk .OP_NONE .NULL .NULL (some s)

/-- A simple command with the given verb and parameters and no redirection. -/
def plain (verb params : word_t) : simple_command_t :=
  { verb := verb, params := params, in_ := .NULL, out := .NULL, err := .NULL,
    io_flags := IO_REGULAR }

/-- A single literal word. -/
def lit (string : String) : word_t :=
  .mk string false .NULL .NULL

/-! ## A small machine for concrete runs -/

/-- Modelled from the spec: the value of `SHELL_EXIT` (header `cmd.h`, not
in the sources) used in the concrete runs; a reserved sentinel distinct from
every ordinary exit code 0..255. -/
def sentinel : Int := -100

/-- A kernel whose world is the log of the lines written and of the
programs started.  Only `f.txt` can be opened for reading, only `/tmp` is a
directory one can change to; the programs `true`, `false`, `grep` exit with
0, 1, 2, the program `sleep` is killed by signal 9, and nothing else can be
executed (`ENOENT`, 2).  No shell process is killed. -/
def k0 : kernel (List String) where
  open_ := fun w _ path flags =>
    if flags = .O_RDONLY then (if path = "f.txt" then some w else none) else some w
  chdir := fun _ _ path =>
    if path = some "/tmp" then .ok "/tmp" else .error "No such file or directory"
  getcwd := fun _ cwd => some cwd
  write := fun w _ bytes => w ++ [bytes]
  new_pipe := fun w => (0, w)
  execvp := fun w file args _ _ _ =>
    if file = "true" then .ran (.exited 0) (w ++ [String.intercalate " " args])
    else if file = "false" then .ran (.exited 1) (w ++ [String.intercalate " " args])
    else if file = "grep" then .ran (.exited 2) (w ++ [String.intercalate " " args])
    else if file = "sleep" then .ran (.signaled 9) (w ++ [String.intercalate " " args])
    else .failed 2
  signal := fun _ => none

/-- Start state of the concrete runs: empty environment, the three standard
streams, and `junk` in uninitialised stack memory. -/
def st0 : state (List String) :=
  { env := [], cwd := "/", fds := [some (.inherited 0), some (.inherited 1), some (.inherited 2)],
    stack := "junk", world := [] }

/-- The assignment leaf `X=5`. -/
def assign_X_5 : command_t :=
  leaf (plain (.mk "X" false (.mk "=" false (lit "5") .NULL) .NULL) .NULL)

/-- The leaf `exit`. -/
def exit_leaf : command_t :=
  leaf (plain (lit "exit") .NULL)

/-- The leaf `cd /nonexistent`. -/
def cd_nonexistent : command_t :=
  leaf (plain (lit "cd") (lit "/nonexistent"))

/-- The leaf `cd` without parameters. -/
def cd_leaf : command_t :=
  leaf (plain (lit "cd") .NULL)

/-- The leaf `true`. -/
def true_leaf : command_t :=
  leaf (plain (lit "true") .NULL)

/-- The leaf `grep x`. -/
def grep_leaf : command_t :=
  leaf (plain (lit "grep") (lit "x"))

/-- The leaf `sleep 100`. -/
def sleep_leaf : command_t :=
  leaf (plain (lit "sleep") (lit "100"))

/-- The state in which the consumer of `true | grep x` runs from `st0`:
standard input is the read end of the pipe, the producer has run. -/
def consumer0 : state (List String) :=
  { st0 with
    fds := [some (.pipe_end 0 false), some (.inherited 1), some (.inherited 2), none, none],
    world := ["true"] }

/-- The leaf `cd=5`: the verb word has the fragments `cd`, `=`, `5`. -/
def assign_cd_5 : command_t :=
  leaf (plain (.mk "cd" false (.mk "=" false (lit "5") .NULL) .NULL) .NULL)

/-- The leaf `X=` with an absent value word. -/
def assign_X_empty : command_t :=
  leaf (plain (.mk "X" false (.mk "=" false .NULL .NULL) .NULL) .NULL)

/-- The leaf `X=aaa...a` with a value of 100 characters. -/
def assign_X_long : command_t :=
  leaf (plain (.mk "X" false (.mk "=" false (lit (String.mk (List.replicate 100 'a'))) .NULL)
    .NULL) .NULL)

/-- The command `$CMD x`, whose verb is a reference to the variable `CMD`. -/
def cmd_var : simple_command_t :=
  plain (.mk "CMD" true .NULL .NULL) (lit "x")

/-- The parameter list `$A$B` (one word of two fragments). -/
def params_A_B : word_t :=
  .mk "A" true (.mk "B" true .NULL .NULL) .NULL

/-- The parameter list `$A-x $U end`. -/
def params_three : word_t :=
  .mk "A" true (lit "-x") (.mk "U" true .NULL (lit "end"))

/-- The command `cd < missing`. -/
def cd_in_missing : simple_command_t :=
  { plain (lit "cd") .NULL with in_ := lit "missing" }

/-- The command `true < missing`. -/
def true_in_missing : simple_command_t :=
  { plain (lit "true") .NULL with in_ := lit "missing" }

/-- The leaf `true $X`. -/
def true_X : command_t :=
  leaf (plain (lit "true") (.mk "X" true .NULL .NULL))

/-! ## Operators of `parse_command` -/

section operators

variable {W : Type}

/-- C1. Short-circuit conditionals: when `cmd1` returns status `r` and
leaves state `st1`, a conditional-zero node returns what `cmd2` returns from
`st1` if `r` is 0 and otherwise returns `r` in `st1` without evaluating `cmd2`;
a conditional-nonzero node evaluates `cmd2` from `st1` exactly when `r` is not
0 and otherwise returns `r` (0) in `st1`. -/
theorem conditional_short_circuit (k : kernel W) (SHELL_EXIT : Int) (cmd1 cmd2 : command_t)
    (scmd : Option simple_command_t) (st st1 : state W) (r : Int)
    (h : parse_command k SHELL_EXIT cmd1 st = some (r, st1)) :
    parse_command k SHELL_EXIT (.mk .OP_CONDITIONAL_ZERO cmd1 cmd2 scmd) st
        = (if r = 0 then parse_command k SHELL_EXIT cmd2 st1 else some (r, st1)) ∧
      parse_command k SHELL_EXIT (.mk .OP_CONDITIONAL_NZERO cmd1 cmd2 scmd) st
        = (if r ≠ 0 then parse_command k SHELL_EXIT cmd2 st1 else some (r, st1)) := by
  simp [parse_command, h]

/-- Concrete run for C1: `X=5 && exit` and `X=5 || exit`. -/
theorem conditional_short_circuit_witness :
    parse_command k0 sentinel assign_X_5 st0 = some (0, { st0 with env := [("X", "5")] }) ∧
    (parse_command k0 sentinel (.mk .OP_CONDITIONAL_ZERO assign_X_5 exit_leaf none) st0
        = (if (0 : Int) = 0 then
            parse_command k0 sentinel exit_leaf { st0 with env := [("X", "5")] }
          else some (0, { st0 with env := [("X", "5")] })) ∧
      parse_command k0 sentinel (.mk .OP_CONDITIONAL_NZERO assign_X_5 exit_leaf none) st0
        = (if (0 : Int) ≠ 0 then
            parse_command k0 sentinel exit_leaf { st0 with env := [("X", "5")] }
          else some (0, { st0 with env := [("X", "5")] }))) :=
  ⟨by rfl, conditional_short_circuit k0 sentinel assign_X_5 exit_leaf none st0 _ 0 (by rfl)⟩

/-- C2. Sequential composition: when `cmd1` returns any status `r` and
leaves state `st1` (environment table, working directory, descriptors,
world), the sequential node returns exactly what `cmd2` returns when it is
evaluated from `st1`. -/
theorem sequential_uses_state_of_first (k : kernel W) (SHELL_EXIT : Int)
    (cmd1 cmd2 : command_t) (scmd : Option simple_command_t) (st st1 : state W) (r : Int)
    (h : parse_command k SHELL_EXIT cmd1 st = some (r, st1)) :
    parse_command k SHELL_EXIT (.mk .OP_SEQUENTIAL cmd1 cmd2 scmd) st
      = parse_command k SHELL_EXIT cmd2 st1 := by
  simp [parse_command, h]

/-- Concrete run for C2: in `X=5 ; true $X` the second command is evaluated
in the environment the assignment left and is started as `true 5`. -/
theorem sequential_uses_state_of_first_witness :
    parse_command k0 sentinel assign_X_5 st0 = some (0, { st0 with env := [("X", "5")] }) ∧
      parse_command k0 sentinel (.mk .OP_SEQUENTIAL assign_X_5 true_X none) st0
        = parse_command k0 sentinel true_X { st0 with env := [("X", "5")] } ∧
      parse_command k0 sentinel true_X { st0 with env := [("X", "5")] }
        = some (0, { st0 with env := [("X", "5")], world := ["true 5"] }) :=
  ⟨by rfl, sequential_uses_state_of_first k0 sentinel assign_X_5 true_X none st0 _ 0 (by rfl),
    by rfl⟩

/-- When both children return and neither process is killed, the status of
neither command reaches the parent: `run_in_parallel` returns `true`. -/
theorem run_in_parallel_normal_exit (k : kernel W) (p1 p2 : state W → Option (Int × state W))
    (st : state W) (first second : Int × state W)
    (h1 : p1 st = some first)
    (h2 : p2 { st with world := first.2.world } = some second)
    (hsig : k.signal second.2.world = none) :
    run_in_parallel k p1 p2 st = some (true, { st with world := second.2.world }) := by
  simp [run_in_parallel, h1, h2, exit, hsig, WIFEXITED, WEXITSTATUS]

/-- C3. Concrete run: from `st0`, `cd` returns 0 and `cd /nonexistent`
returns 1, and the parallel node over the two returns 0: the second child
ends with `exit(0)` whatever `parse_command` returned, and the first child
drops the status of its own command. -/
theorem parallel_success_failing_returns_zero :
    (parse_command k0 sentinel cd_leaf st0).map Prod.fst = some 0 ∧
      (parse_command k0 sentinel cd_nonexistent st0).map Prod.fst = some 1 ∧
      (parse_command k0 sentinel (.mk .OP_PARALLEL cd_leaf cd_nonexistent none) st0).map Prod.fst
        = some 0 := by
  refine ⟨by rfl, by rfl, by rfl⟩

/-- C4, as stated, fails: in `true | grep x` the consumer `grep x` returns
status 2 in the consumer context, and the pipe node returns 1. -/
theorem pipe_status_not_consumer_status :
    ((consumer_context k0 (parse_command k0 sentinel true_leaf) st0).bind
        (parse_command k0 sentinel grep_leaf)).map Prod.fst = some 2 ∧
      (parse_command k0 sentinel (.mk .OP_PIPE true_leaf grep_leaf none) st0).map Prod.fst
        = some 1 := by
  refine ⟨by rfl, by rfl⟩

/-- C4, amended. When the consumer `cmd2` returns status `r` in the consumer
context (reached after the producer `cmd1` has run) and its process exits
normally, the pipe node returns 0 if the low 8 bits of `r` are 0 and 1
otherwise; the status of `cmd1` plays no part. -/
theorem pipe_status_from_consumer (k : kernel W) (SHELL_EXIT : Int) (cmd1 cmd2 : command_t)
    (scmd : Option simple_command_t) (st c st2 : state W) (r : Int)
    (hc : consumer_context k (parse_command k SHELL_EXIT cmd1) st = some c)
    (h2 : parse_command k SHELL_EXIT cmd2 c = some (r, st2))
    (hsig : k.signal st2.world = none) :
    parse_command k SHELL_EXIT (.mk .OP_PIPE cmd1 cmd2 scmd) st
      = some (if r % 256 = 0 then 0 else 1, pipe_parent_end k st st2.world) := by
  have hx : WEXITSTATUS (.exited (r % 256).toNat) = r % 256 := by
    simp only [WEXITSTATUS]
    omega
  have hrun : run_on_pipe k (parse_command k SHELL_EXIT cmd1) (parse_command k SHELL_EXIT cmd2) st
      = some (decide (r % 256 = 0), pipe_parent_end k st st2.world) := by
    simp [run_on_pipe, hc, h2, exit, hsig, WIFEXITED, hx]
  by_cases hr : r % 256 = 0 <;> simp [parse_command, hrun, hr]

/-- Concrete run for C4: `true | grep x`, consumer status 2, pipe status 1. -/
theorem pipe_status_from_consumer_witness :
    consumer_context k0 (parse_command k0 sentinel true_leaf) st0 = some consumer0 ∧
      parse_command k0 sentinel grep_leaf consumer0
        = some (2, { consumer0 with world := ["true", "grep x"] }) ∧
      k0.signal ["true", "grep x"] = none ∧
      parse_command k0 sentinel (.mk .OP_PIPE true_leaf grep_leaf none) st0
        = some (if (2 : Int) % 256 = 0 then 0 else 1,
            { st0 with fds := st0.fds ++ [none, none], world := ["true", "grep x"] }) :=
  ⟨by rfl, by rfl, by rfl,
    pipe_status_from_consumer k0 sentinel true_leaf grep_leaf none st0 consumer0
      { consumer0 with world := ["true", "grep x"] } 2 (by rfl) (by rfl) (by rfl)⟩

/-- C5, as stated, fails: `exit ; X=5` returns 0, the status of `X=5`, not
the value `sentinel` the leaf `exit` produced. -/
theorem exit_not_propagated_by_sequential :
    parse_command k0 sentinel exit_leaf st0 = some (sentinel, st0) ∧
      parse_command k0 sentinel (.mk .OP_SEQUENTIAL exit_leaf assign_X_5 none) st0
        = some (0, { st0 with env := [("X", "5")] }) ∧
      (0 : Int) ≠ sentinel := by
  refine ⟨by rfl, by rfl, by decide⟩

/-- C5, amended. Let `s` be an `exit` or `quit` command, `SHELL_EXIT` be
nonzero, and let the other child return `r` and leave `st1` when evaluated
from `st`.  With the exit leaf as right child, a sequential node returns
`SHELL_EXIT`, and so does a conditional node whenever it evaluates the
leaf.  With the exit leaf as left child, a conditional-zero node returns
`SHELL_EXIT` without evaluating the other child, while a sequential and a
conditional-nonzero node evaluate the other child and return its status. -/
theorem exit_in_composites (k : kernel W) (SHELL_EXIT : Int) (s : simple_command_t)
    (name : String) (e : Bool) (np nw : word_t) (other : command_t)
    (scmd : Option simple_command_t) (st st1 : state W) (r : Int)
    (hne : SHELL_EXIT ≠ 0)
    (hs : s.verb = .mk name e np nw) (hname : name = "exit" ∨ name = "quit")
    (h : parse_command k SHELL_EXIT other st = some (r, st1)) :
    parse_command k SHELL_EXIT (.mk .OP_SEQUENTIAL other (leaf s) scmd) st
        = some (SHELL_EXIT, st1) ∧
      parse_command k SHELL_EXIT (.mk .OP_CONDITIONAL_ZERO other (leaf s) scmd) st
        = some (if r = 0 then SHELL_EXIT else r, st1) ∧
      parse_command k SHELL_EXIT (.mk .OP_CONDITIONAL_NZERO other (leaf s) scmd) st
        = some (if r ≠ 0 then SHELL_EXIT else r, st1) ∧
      parse_command k SHELL_EXIT (.mk .OP_CONDITIONAL_ZERO (leaf s) other scmd) st
        = some (SHELL_EXIT, st) ∧
      parse_command k SHELL_EXIT (.mk .OP_SEQUENTIAL (leaf s) other scmd) st = some (r, st1) ∧
      parse_command k SHELL_EXIT (.mk .OP_CONDITIONAL_NZERO (leaf s) other scmd) st
        = some (r, st1) := by
  have hleaf : ∀ st2 : state W, parse_command k SHELL_EXIT (leaf s) st2 = some (SHELL_EXIT, st2) := by
    intro st2
    rcases hname with hn | hn <;> subst hn <;>
      simp [leaf, parse_command, parse_simple, hs]
  refine ⟨?_, ?_, ?_, ?_, ?_, ?_⟩
  · simp [parse_command, h]
    simpa [leaf, parse_command] using hleaf st1
  · by_cases hr : r = 0
    · simp [parse_command, h, hr]
      simpa [leaf, parse_command] using hleaf st1
    · simp [parse_command, h, hr]
  · by_cases hr : r = 0
    · simp [parse_command, h, hr]
    · simp [parse_command, h, hr]
      simpa [leaf, parse_command] using hleaf st1
  · have := hleaf st
    simp only [leaf] at this
    simp [leaf, parse_command, hne] at this ⊢
    simp [this, hne]
  · have := hleaf st
    simp only [leaf] at this
    simp [leaf, parse_command] at this ⊢
    simp [this, h]
  · have := hleaf st
    simp only [leaf] at this
    simp [leaf, parse_command, hne] at this ⊢
    simp [this, hne, h]

/-- Concrete run for C5: the leaf `exit` next to `X=5`. -/
theorem exit_in_composites_witness :
    sentinel ≠ 0 ∧
      (plain (lit "exit") .NULL).verb = .mk "exit" false .NULL .NULL ∧
      ("exit" = "exit" ∨ "exit" = "quit") ∧
      parse_command k0 sentinel assign_X_5 st0 = some (0, { st0 with env := [("X", "5")] }) ∧
      parse_command k0 sentinel (.mk .OP_SEQUENTIAL exit_leaf assign_X_5 none) st0
        = some (0, { st0 with env := [("X", "5")] }) :=
  ⟨by decide, by rfl, Or.inl rfl, by rfl,
    (exit_in_composites k0 sentinel (plain (lit "exit") .NULL) "exit" false .NULL .NULL
      assign_X_5 none st0 _ 0 (by decide) (by rfl) (Or.inl rfl) (by rfl)).2.2.2.2.1⟩

/-- C10. Concrete run: the child of the external leaf `sleep 100` is killed
by signal 9 (it does not exit), and `parse_simple` returns 0 for the leaf. -/
theorem killed_child_gives_status_zero :
    run_child k0 (plain (lit "sleep") (lit "100")) "sleep" st0
        = some (.signaled 9, ["sleep 100"]) ∧
      WIFEXITED (.signaled 9) = false ∧
      parse_command k0 sentinel sleep_leaf st0 = some (0, { st0 with world := ["sleep 100"] }) := by
  refine ⟨by rfl, by rfl, by rfl⟩

end operators

/-! ## Word expansion -/

/-- Once a fragment has been copied (`first` is false) the loop appends the
expansion of the remaining fragments, provided the result fits. -/
theorem compute_word_loop_appends (size : Nat) (env : List (String × String)) (flag : word_t) :
    ∀ auxvalue : String, (auxvalue ++ expand env flag).length < size →
      compute_word_loop size env flag false auxvalue = some (auxvalue ++ expand env flag) := by
  induction flag with
  | NULL =>
    intro auxvalue _
    simp [compute_word_loop, expand]
  | mk string e next_part next_word ih _ =>
    intro auxvalue h
    have hstep : ∀ v : String, contribution env string e = v →
        (strcat size auxvalue v).bind (compute_word_loop size env next_part false)
          = some (auxvalue ++ expand env (.mk string e next_part next_word)) := by
      intro v hv
      have h1 : (auxvalue ++ v ++ expand env next_part).length < size := by
        simpa [expand, hv, String.append_assoc] using h
      have h2 : (auxvalue ++ v).length < size := by
        simp only [String.length_append] at h1 ⊢
        omega
      have h3 : strcat size auxvalue v = some (auxvalue ++ v) := by
        unfold strcat
        rw [if_pos h2]
      rw [h3, Option.some_bind, ih _ h1]
      simp [expand, hv, String.append_assoc]
    cases e with
    | false => simpa [compute_word_loop] using hstep string (by simp [contribution])
    | true =>
      cases hg : getenv env string with
      | none =>
        have h1 : (auxvalue ++ expand env next_part).length < size := by
          simpa [expand, contribution, hg] using h
        simp [compute_word_loop, hg, ih _ h1, expand, contribution]
      | some var =>
        simpa [compute_word_loop, hg] using hstep var (by simp [contribution, hg])

/-- The loop of `compute_word` from its start (`first` is true): the array
receives the expansion if some fragment contributes, and is left as it was
otherwise. -/
theorem compute_word_loop_first (size : Nat) (env : List (String × String)) (flag : word_t) :
    ∀ auxvalue : String, (expand env flag).length < size →
      compute_word_loop size env flag true auxvalue
        = some (if contributes env flag then expand env flag else auxvalue) := by
  induction flag with
  | NULL =>
    intro auxvalue _
    simp [compute_word_loop, contributes]
  | mk string e next_part next_word ih _ =>
    intro auxvalue h
    have hstep : ∀ v : String, contribution env string e = v →
        (strcpy size v).bind (compute_word_loop size env next_part false)
          = some (expand env (.mk string e next_part next_word)) := by
      intro v hv
      have h1 : (v ++ expand env next_part).length < size := by
        simpa [expand, hv] using h
      have h2 : v.length < size := by
        simp only [String.length_append] at h1
        omega
      have h3 : strcpy size v = some v := by
        unfold strcpy
        rw [if_pos h2]
      rw [h3, Option.some_bind, compute_word_loop_appends size env next_part v h1]
      simp [expand, hv]
    cases e with
    | false =>
      simpa [compute_word_loop, contributes] using hstep string (by simp [contribution])
    | true =>
      cases hg : getenv env string with
      | none =>
        have h1 : (expand env next_part).length < size := by
          simpa [expand, contribution, hg] using h
        simp [compute_word_loop, hg, ih _ h1, expand, contribution, contributes]
      | some var =>
        simpa [compute_word_loop, hg, contributes] using hstep var (by simp [contribution, hg])

/-- The function `compute_word` writes the expansion of a word that has a
contributing fragment and whose expansion fits the array. -/
theorem compute_word_writes_expansion (size : Nat) (env : List (String × String))
    (flag : word_t) (auxvalue : String) (hc : contributes env flag = true)
    (hfit : (expand env flag).length < size) :
    compute_word size env flag auxvalue = some (expand env flag) := by
  simp [compute_word, compute_word_loop_first size env flag auxvalue hfit, hc]

/-- C6, as stated, fails: for the absent word and for a word whose only
fragment is an undefined variable `compute_word` leaves the array as it was
(`junk`, not the empty concatenation), so the result depends on the previous
content; and a 100-character literal does not fit the 100-char arrays of the
callers. -/
theorem compute_word_keeps_previous_content :
    expand [] .NULL = "" ∧
      compute_word 100 [] .NULL "junk" = some "junk" ∧
      expand [] (.mk "A" true .NULL .NULL) = "" ∧
      compute_word 100 [] (.mk "A" true .NULL .NULL) "junk" = some "junk" ∧
      compute_word 100 [] (.mk "A" true .NULL .NULL) "other" = some "other" ∧
      compute_word 100 [] (lit (String.mk (List.replicate 100 'a'))) "" = none := by
  refine ⟨by rfl, by rfl, by rfl, by rfl, by rfl, by rfl⟩

/-- C6, amended. For every word with at least one contributing fragment (a
literal, or a reference to a defined variable) whose expansion is shorter
than the output array, `compute_word` leaves in the array the in-order
concatenation of the fragment contributions, whatever the array held. -/
theorem compute_word_expands (size : Nat) (env : List (String × String)) (flag : word_t)
    (auxvalue : String) (hc : contributes env flag = true)
    (hfit : (expand env flag).length < size) :
    compute_word size env flag auxvalue = some (expand env flag) :=
  compute_word_writes_expansion size env flag auxvalue hc hfit

/-- Concrete run for C6: `$A-z` with `A=xy` expands to `xy-z`. -/
theorem compute_word_expands_witness :
    contributes [("A", "xy")] (.mk "A" true (lit "-z") .NULL) = true ∧
      (expand [("A", "xy")] (.mk "A" true (lit "-z") .NULL)).length < 100 ∧
      compute_word 100 [("A", "xy")] (.mk "A" true (lit "-z") .NULL) "junk" = some "xy-z" :=
  ⟨by rfl, by decide,
    compute_word_expands 100 [("A", "xy")] (.mk "A" true (lit "-z") .NULL) "junk" (by rfl)
      (by decide)⟩

/-! ## Assignment -/

section assignment

variable {W : Type}

/-- After a successful `setenv` of `name`, `getenv` finds the new value. -/
theorem getenv_setenv (env : List (String × String)) (name value : String) :
    getenv ((name, value) :: env.filter (fun e => decide (e.1 ≠ name))) name = some value := by
  simp [getenv]

/-- C7, as stated, fails: `cd=5` is run as the built-in `cd` and leaves the
environment without `cd`; `X=` with an absent value sets `X` to what the
uninitialised array holds (`junk`); a value of 100 characters does not fit
the array `auxvalue[100]`. -/
theorem assignment_not_for_every_name_and_value :
    parse_command k0 sentinel assign_cd_5 st0 = some (0, { st0 with fds := st0.fds ++ st0.fds }) ∧
      getenv st0.env "cd" = none ∧
      parse_command k0 sentinel assign_X_empty st0 = some (0, { st0 with env := [("X", "junk")] }) ∧
      parse_command k0 sentinel assign_X_long st0 = none := by
  refine ⟨by rfl, by rfl, by rfl, by rfl⟩

/-- C7, amended. For every name `N` that `setenv` accepts (not empty, no
`=`) and that is not one of `cd`, `pwd`, `exit`, `quit`, and every value word
`V` with a contributing fragment whose expansion in the environment `E` is
shorter than 100 characters, the assignment leaf `N=V` returns 0 and leaves
the environment in which `getenv(N)`, and so the expansion of a reference to
`N`, is the expansion of `V` in `E`, whatever `N` was bound to before. -/
theorem assignment_round_trip (k : kernel W) (SHELL_EXIT : Int) (s : simple_command_t)
    (N eq : String) (e e2 : Bool) (V nw nw2 nw3 : word_t) (st : state W) (auxvalue : String)
    (hs : s.verb = .mk N e (.mk eq e2 V nw2) nw)
    (heq : eq.data.head? = some '=')
    (hb : N ≠ "cd" ∧ N ≠ "pwd" ∧ N ≠ "exit" ∧ N ≠ "quit")
    (hN : N ≠ "" ∧ '=' ∉ N.data)
    (hc : contributes st.env V = true)
    (hfit : (expand st.env V).length < 100) :
    parse_command k SHELL_EXIT (leaf s) st
        = some (0, { st with env := (setenv st.env N (expand st.env V)).2 }) ∧
      getenv (setenv st.env N (expand st.env V)).2 N = some (expand st.env V) ∧
      compute_word 100 (setenv st.env N (expand st.env V)).2 (.mk N true .NULL nw3) auxvalue
        = some (expand st.env V) := by
  obtain ⟨h1, h2, h3, h4⟩ := hb
  obtain ⟨h5, h6⟩ := hN
  have hset : setenv st.env N (expand st.env V)
      = (0, (N, expand st.env V) :: st.env.filter (fun e => decide (e.1 ≠ N))) := by
    simp [setenv, h5, h6]
  have hget : getenv (setenv st.env N (expand st.env V)).2 N = some (expand st.env V) := by
    rw [hset]
    exact getenv_setenv st.env N (expand st.env V)
  refine ⟨?_, hget, ?_⟩
  · simp [leaf, parse_command, parse_simple, hs, h1, h2, h3, h4, heq,
      compute_word_writes_expansion 100 st.env V st.stack hc hfit, hset]
  · have hfit2 : (expand (setenv st.env N (expand st.env V)).2 (.mk N true .NULL nw3)).length
        < 100 := by
      simpa [expand, contribution, hget] using hfit
    rw [compute_word_writes_expansion 100 _ (.mk N true .NULL nw3) auxvalue
      (by simp [contributes, hget]) hfit2]
    simp [expand, contribution, hget]

/-- Concrete run for C7: `X=5` from an environment where `X` is `old`. -/
theorem assignment_round_trip_witness :
    (plain (.mk "X" false (.mk "=" false (lit "5") .NULL) .NULL) .NULL).verb
        = .mk "X" false (.mk "=" false (lit "5") .NULL) .NULL ∧
      "=".data.head? = some '=' ∧
      ("X" ≠ "cd" ∧ "X" ≠ "pwd" ∧ "X" ≠ "exit" ∧ "X" ≠ "quit") ∧
      ("X" ≠ "" ∧ '=' ∉ "X".data) ∧
      contributes [("X", "old")] (lit "5") = true ∧
      (expand [("X", "old")] (lit "5")).length < 100 ∧
      parse_command k0 sentinel assign_X_5 { st0 with env := [("X", "old")] }
        = some (0, { st0 with env := [("X", "5")] }) ∧
      getenv [("X", "5")] "X" = some "5" ∧
      compute_word 100 [("X", "5")] (.mk "X" true .NULL .NULL) "junk" = some "5" :=
  ⟨by rfl, by rfl, by decide, by decide, by rfl, by decide,
    assignment_round_trip k0 sentinel
      (plain (.mk "X" false (.mk "=" false (lit "5") .NULL) .NULL) .NULL)
      "X" "=" false false (lit "5") .NULL .NULL .NULL { st0 with env := [("X", "old")] } "junk"
      (by rfl) (by rfl) (by decide) (by decide) (by rfl) (by decide)⟩

end assignment

/-! ## Argument vector of an external command -/

/-- The parameter loop stores one pointer per word and leaves in `auxvalue`
the expansion of the last multi-fragment word, when there is room in
`args[]` and every multi-fragment word has a contributing fragment and an
expansion that fits the array. -/
theorem args_loop_stores (env : List (String × String)) (params : word_t) :
    ∀ (args : List arg_t) (auxvalue : String),
      args.length + (words params).length ≤ 50 →
      (∀ w ∈ words params, multi w = true →
        contributes env w = true ∧ (expand env w).length < 100) →
      args_loop env params args auxvalue
        = some (args ++ (words params).map (stored env),
            last_auxvalue env (words params) auxvalue) := by
  induction params with
  | NULL =>
    intro args auxvalue _ _
    simp [args_loop, words, last_auxvalue]
  | mk string e next_part next_word _ ih =>
    intro args auxvalue hlen hw
    have hlt : args.length < 50 := by
      simp only [words, List.length_cons] at hlen
      omega
    have hlen2 : ∀ a : arg_t, (args ++ [a]).length + (words next_word).length ≤ 50 := by
      intro a
      simp only [words, List.length_cons] at hlen
      simp only [List.length_append, List.length_singleton]
      omega
    have hw2 : ∀ w ∈ words next_word, multi w = true →
        contributes env w = true ∧ (expand env w).length < 100 := by
      intro w hmem
      exact hw w (by simp [words, hmem])
    cases next_part with
    | NULL =>
      cases e with
      | false =>
        simp [args_loop, hlt, ih _ auxvalue (hlen2 _) hw2, words, stored, multi, expand,
          contribution, last_auxvalue]
      | true =>
        simp [args_loop, hlt, ih _ auxvalue (hlen2 _) hw2, words, stored, multi, expand,
          contribution, last_auxvalue]
    | mk ps pe pnp pnw =>
      have hthis := hw (.mk string e (.mk ps pe pnp pnw) next_word) (by simp [words]) (by rfl)
      have hcw := compute_word_writes_expansion 100 env (.mk string e (.mk ps pe pnp pnw) next_word)
        auxvalue hthis.1 hthis.2
      simp only [args_loop, hlt, if_true, hcw, Option.some_bind]
      rw [ih _ _ (hlen2 _) hw2]
      simp [words, stored, multi, last_auxvalue]

/-- Without a multi-fragment word the array of the loop is not written and
every stored pointer reads as the expansion of its word. -/
theorem deref_no_multi (env : List (String × String)) (ws : List word_t) :
    ∀ (auxvalue other : String), (ws.filter multi).length = 0 →
      last_auxvalue env ws auxvalue = auxvalue ∧
        (ws.map (stored env)).map (deref other) = ws.map (expand env) := by
  induction ws with
  | nil =>
    intro auxvalue other _
    simp [last_auxvalue]
  | cons w ws ih =>
    intro auxvalue other h
    cases hm : multi w with
    | true => simp [List.filter, hm] at h
    | false =>
      have h2 : (ws.filter multi).length = 0 := by simpa [List.filter, hm] using h
      obtain ⟨i1, i2⟩ := ih auxvalue other h2
      simp [last_auxvalue, hm, i1, stored, deref]
      simpa using i2

/-- With at most one multi-fragment word, reading the stored pointers after
the loop gives the expansions of the words, in order. -/
theorem deref_single_multi (env : List (String × String)) (ws : List word_t) :
    ∀ (auxvalue : String), (ws.filter multi).length ≤ 1 →
      (ws.map (stored env)).map (deref (last_auxvalue env ws auxvalue)) = ws.map (expand env) := by
  induction ws with
  | nil =>
    intro auxvalue _
    simp
  | cons w ws ih =>
    intro auxvalue h
    cases hm : multi w with
    | true =>
      have h2 : (ws.filter multi).length = 0 := by
        simp only [List.filter, hm, List.length_cons] at h
        omega
      obtain ⟨i1, i2⟩ := deref_no_multi env ws (expand env w) (expand env w) h2
      simp [last_auxvalue, hm, i1, stored, deref]
      simpa using i2
    | false =>
      have h2 : (ws.filter multi).length ≤ 1 := by simpa [List.filter, hm] using h
      have i := ih auxvalue h2
      simp [last_auxvalue, hm, stored, deref]
      simpa using i

/-- C8, as stated, fails: for the command `$CMD x` with `CMD=true` the
expansion of the verb is `true`, but `args[0]` and the file handed to
`execvp` are the text `CMD` (the program is not found, status 2); and the
two-fragment parameter `$A$B` with both variables undefined yields the
content of the uninitialised array (`junk`), not an empty string. -/
theorem argument_vector_not_expansions :
    expand [("CMD", "true")] cmd_var.verb = "true" ∧
      build_args [("CMD", "true")] "CMD" cmd_var.params "junk" = some ["CMD", "x"] ∧
      parse_command k0 sentinel (leaf cmd_var) { st0 with env := [("CMD", "true")] }
        = some (2, { st0 with env := [("CMD", "true")],
                              world := ["Execution failed for \x27CMD\x27\n"] }) ∧
      expand [] params_A_B = "" ∧
      build_args [] "echo" params_A_B "junk" = some ["echo", "junk"] := by
  refine ⟨by rfl, by rfl, by rfl, by rfl, by rfl⟩

/-- C8, amended. The argument vector the child builds and hands to `execvp`
(after the redirections) is the text of the first fragment of the verb (not
expanded) followed by one entry per parameter word, in order, each the
expansion of that word (an empty string for a single-fragment reference to
an undefined variable), provided there are at most 48 parameters, at most
one of them has several fragments, and that one has a contributing fragment
and an expansion shorter than 100 characters. -/
theorem build_args_expands_params {W : Type} (k : kernel W) (s : simple_command_t)
    (verb_string : String) (st : state W)
    (hn : (words s.params).length ≤ 48)
    (hm : ((words s.params).filter multi).length ≤ 1)
    (hw : ∀ w ∈ words s.params, multi w = true →
      contributes st.env w = true ∧ (expand st.env w).length < 100) :
    build_args st.env verb_string s.params st.stack
        = some (verb_string :: (words s.params).map (expand st.env)) ∧
      run_child k s verb_string st
        = (redirection_files k s st).map fun r =>
            exec_child k verb_string (verb_string :: (words s.params).map (expand st.env)) r.1 := by
  have hloop := args_loop_stores st.env s.params [.str verb_string] st.stack
    (by simp only [List.length_singleton]; omega) hw
  have hlen : ([arg_t.str verb_string] ++ (words s.params).map (stored st.env)).length < 50 := by
    simp only [List.length_append, List.length_singleton, List.length_map]
    omega
  have hargs : build_args st.env verb_string s.params st.stack
      = some (verb_string :: (words s.params).map (expand st.env)) := by
    simp only [build_args, hloop, Option.some_bind, hlen, if_true]
    simp [deref, deref_single_multi st.env (words s.params) st.stack hm]
  exact ⟨hargs, by simp [run_child, hargs]⟩

/-- Concrete run for C8: `echo $A-x $U end` with `A=a` and `U` undefined. -/
theorem build_args_expands_params_witness :
    (words (plain (lit "echo") params_three).params).length ≤ 48 ∧
      ((words (plain (lit "echo") params_three).params).filter multi).length ≤ 1 ∧
      (∀ w ∈ words (plain (lit "echo") params_three).params, multi w = true →
        contributes [("A", "a")] w = true ∧ (expand [("A", "a")] w).length < 100) ∧
      build_args [("A", "a")] "echo" params_three "junk" = some ["echo", "a-x", "", "end"] :=
  ⟨by decide, by decide, by decide,
    (build_args_expands_params k0 (plain (lit "echo") params_three) "echo"
      { st0 with env := [("A", "a")] } (by decide) (by decide) (by decide)).1⟩

/-! ## Input redirection that cannot be opened -/

section redirection

variable {W : Type}

/-- The call `dup` changes the descriptor table only. -/
theorem dup_preserves (st : state W) (fd : Int) :
    (dup st fd).2.env = st.env ∧ (dup st fd).2.cwd = st.cwd ∧
      (dup st fd).2.stack = st.stack ∧ (dup st fd).2.world = st.world := by
  unfold dup
  split <;> simp

/-- When the `open` of the input file fails, the first block of
`redirection_files` leaves the state as it was (`dup2(-1, 0)` and
`close(-1)` do nothing) and sets `*changed_in`. -/
theorem redirect_in_failed (k : kernel W) (s : simple_command_t) (st : state W) (path : String)
    (hin : s.in_ ≠ .NULL)
    (hp : compute_word 100 st.env s.in_ st.stack = some path)
    (hopen : k.open_ st.world st.cwd path .O_RDONLY = none) :
    redirect_in k s st = some (st, true) := by
  unfold redirect_in
  cases hi : s.in_ with
  | NULL => exact absurd hi hin
  | mk a b c d =>
    rw [hi] at hp
    simp [hp, open_, hopen, dup2, close, fd_get]

/-- With a failing input file `redirection_files` does what it does without
the input redirection, except for the flag `*changed_in`. -/
theorem redirection_files_failed_in (k : kernel W) (s : simple_command_t) (st : state W)
    (path : String) (hin : s.in_ ≠ .NULL)
    (hp : compute_word 100 st.env s.in_ st.stack = some path)
    (hopen : k.open_ st.world st.cwd path .O_RDONLY = none) :
    redirection_files k s st
      = (redirection_files k { s with in_ := .NULL } st).map
          (fun r => (r.1, true, r.2.2.1, r.2.2.2)) := by
  have h0 : redirect_in k { s with in_ := .NULL } st = some (st, false) := by
    simp [redirect_in]
  have h1 : ∀ x, redirect_out k { s with in_ := .NULL } x = redirect_out k s x := fun _ => rfl
  have h2 : ∀ x, redirect_err k { s with in_ := .NULL } x = redirect_err k s x := fun _ => rfl
  simp only [redirection_files, redirect_in_failed k s st path hin hp hopen, h0, h1, h2,
    Option.some_bind]
  cases redirect_out k s st with
  | none => simp
  | some b =>
    simp only [Option.some_bind, Option.map_map]
    cases redirect_err k s b.1 with
    | none => simp
    | some c => simp

/-- The call `dup2` changes the descriptor table only. -/
theorem dup2_preserves (st : state W) (oldfd newfd : Int) :
    (dup2 st oldfd newfd).env = st.env ∧ (dup2 st oldfd newfd).cwd = st.cwd ∧
      (dup2 st oldfd newfd).world = st.world := by
  unfold dup2
  split
  · simp
  · split <;> simp

/-- The call `close` changes the descriptor table only. -/
theorem close_preserves (st : state W) (fd : Int) :
    (close st fd).env = st.env ∧ (close st fd).cwd = st.cwd ∧
      (close st fd).world = st.world := by
  unfold close
  split <;> simp

/-- Restoring a standard descriptor changes the descriptor table only. -/
theorem restore_preserves (st : state W) (changed : Bool) (saved fd : Int) :
    (restore st changed saved fd).env = st.env ∧ (restore st changed saved fd).cwd = st.cwd ∧
      (restore st changed saved fd).world = st.world := by
  unfold restore
  split
  · obtain ⟨a1, a2, a3⟩ := close_preserves (dup2 st saved fd) saved
    obtain ⟨b1, b2, b3⟩ := dup2_preserves st saved fd
    exact ⟨a1.trans b1, a2.trans b2, a3.trans b3⟩
  · simp

/-- The three restore blocks change the descriptor table only. -/
theorem restore_all_preserves (st : state W) (changed : Bool × Bool × Bool)
    (saved_in saved_out saved_err : Int) :
    (restore_all st changed saved_in saved_out saved_err).env = st.env ∧
      (restore_all st changed saved_in saved_out saved_err).cwd = st.cwd ∧
      (restore_all st changed saved_in saved_out saved_err).world = st.world := by
  unfold restore_all
  obtain ⟨a1, a2, a3⟩ := restore_preserves st changed.1 saved_in 0
  obtain ⟨b1, b2, b3⟩ := restore_preserves (restore st changed.1 saved_in 0) changed.2.1 saved_out 1
  obtain ⟨c1, c2, c3⟩ := restore_preserves
    (restore (restore st changed.1 saved_in 0) changed.2.1 saved_out 1) changed.2.2 saved_err 2
  exact ⟨c1.trans (b1.trans a1), c2.trans (b2.trans a2), c3.trans (b3.trans a3)⟩

/-- With a failing input file the child of an external command does what
it does without the input redirection. -/
theorem run_child_failed_in (k : kernel W) (s : simple_command_t) (verb_string : String)
    (st : state W) (path : String) (hin : s.in_ ≠ .NULL)
    (hp : compute_word 100 st.env s.in_ st.stack = some path)
    (hopen : k.open_ st.world st.cwd path .O_RDONLY = none) :
    run_child k s verb_string st = run_child k { s with in_ := .NULL } verb_string st := by
  unfold run_child
  rw [redirection_files_failed_in k s st path hin hp hopen]
  simp only [Option.map_map]
  rfl

/-- C9, as stated, fails: `missing` cannot be opened, yet `cd < missing`
and `true < missing` return 0, and `redirection_files` leaves the
descriptor table as it was: standard input is still the original stream. -/
theorem failed_input_redirection_returns_zero :
    k0.open_ st0.world st0.cwd "missing" .O_RDONLY = none ∧
      (parse_command k0 sentinel (leaf cd_in_missing) st0).map Prod.fst = some 0 ∧
      redirection_files k0 true_in_missing st0 = some (st0, true, false, false) ∧
      fd_get st0.fds 0 = some (.inherited 0) ∧
      parse_command k0 sentinel (leaf true_in_missing) st0
        = some (0, { st0 with world := ["true"] }) := by
  refine ⟨by rfl, by rfl, by rfl, by rfl, by rfl⟩

/-- C9, amended. For every leaf with an `in` redirection whose target cannot
be opened read-only, the redirection changes nothing (standard input stays
attached to the original stream) and the command runs as it does without
the redirection: the leaf returns the same status and leaves the same
environment, working directory and world as the leaf without `in`. -/
theorem failed_input_redirection_ignored (k : kernel W) (SHELL_EXIT : Int)
    (s : simple_command_t) (st : state W) (path : String)
    (hin : s.in_ ≠ .NULL)
    (hp : compute_word 100 st.env s.in_ st.stack = some path)
    (hopen : k.open_ st.world st.cwd path .O_RDONLY = none) :
    redirect_in k s st = some (st, true) ∧
      (parse_command k SHELL_EXIT (leaf s) st).map
          (fun r => (r.1, r.2.env, r.2.cwd, r.2.world))
        = (parse_command k SHELL_EXIT (leaf { s with in_ := .NULL }) st).map
          (fun r => (r.1, r.2.env, r.2.cwd, r.2.world)) := by
  refine ⟨redirect_in_failed k s st path hin hp hopen, ?_⟩
  have henv := fun (x : state W) (ch : Bool × Bool × Bool) (a b c : Int) =>
    (restore_all_preserves x ch a b c).1
  have hcwd := fun (x : state W) (ch : Bool × Bool × Bool) (a b c : Int) =>
    (restore_all_preserves x ch a b c).2.1
  have hworld := fun (x : state W) (ch : Bool × Bool × Bool) (a b c : Int) =>
    (restore_all_preserves x ch a b c).2.2
  have hchild := fun (v : String) => run_child_failed_in k s v st path hin hp hopen
  have hred : ∀ x : state W, x.env = st.env → x.stack = st.stack → x.world = st.world →
      x.cwd = st.cwd →
      redirection_files k s x
        = (redirection_files k { s with in_ := .NULL } x).map
            (fun r => (r.1, true, r.2.2.1, r.2.2.2)) := by
    intro x e1 e2 e3 e4
    exact redirection_files_failed_in k s x path hin (by rw [e1, e2]; exact hp)
      (by rw [e3, e4]; exact hopen)
  obtain ⟨a1, a2, a3, a4⟩ := dup_preserves st 0
  obtain ⟨b1, b2, b3, b4⟩ := dup_preserves (dup st 0).2 1
  obtain ⟨c1, c2, c3, c4⟩ := dup_preserves (dup (dup st 0).2 1).2 2
  have hred3 := hred (dup (dup (dup st 0).2 1).2 2).2 (c1.trans (b1.trans a1))
    (c3.trans (b3.trans a3)) (c4.trans (b4.trans a4)) (c2.trans (b2.trans a2))
  clear hred hin hp hopen a1 a2 a3 a4 b1 b2 b3 b4 c1 c2 c3 c4
  obtain ⟨verb, params, in_, out, err, io_flags⟩ := s
  simp only [leaf, parse_command]
  unfold parse_simple
  simp only at hchild hred3 ⊢
  cases verb with
  | NULL => rfl
  | mk vs ve vnp vnw =>
    simp only
    by_cases hb : vs = "cd" ∨ vs = "pwd"
    · simp only [hb, if_true]
      rw [hred3]
      cases redirection_files k ⟨.mk vs ve vnp vnw, params, .NULL, out, err, io_flags⟩
        (dup (dup (dup st 0).2 1).2 2).2 with
      | none => rfl
      | some red =>
        by_cases hcd : vs = "cd"
        · simp [hcd, henv, hcwd, hworld]
        · simp [hcd, henv, hcwd, hworld]
    · simp only [hb, if_false]
      rw [hchild]

/-- Concrete run for C9: `cd < missing` behaves like `cd`. -/
theorem failed_input_redirection_ignored_witness :
    cd_in_missing.in_ ≠ .NULL ∧
      compute_word 100 st0.env cd_in_missing.in_ st0.stack = some "missing" ∧
      k0.open_ st0.world st0.cwd "missing" .O_RDONLY = none ∧
      redirect_in k0 cd_in_missing st0 = some (st0, true) ∧
      (parse_command k0 sentinel (leaf cd_in_missing) st0).map
          (fun r => (r.1, r.2.env, r.2.cwd, r.2.world))
        = (parse_command k0 sentinel cd_leaf st0).map
          (fun r => (r.1, r.2.env, r.2.cwd, r.2.world)) :=
  ⟨by decide, by rfl, by rfl,
    failed_input_redirection_ignored k0 sentinel cd_in_missing st0 "missing" (by decide) (by rfl)
      (by rfl)⟩

end redirection

end MiniShell
